import Mathlib

/-!
Shallow embedding of the vector2math crate (src/lib.rs): the trait hierarchy
`Pair`, `Scalar`, `FloatingScalar`, `Vector2`, `Rectangle`, `Circle` and the
derived geometry operations the verified properties refer to. Rust traits
become Lean type classes; trait default methods become definitions generic
over the classes; the blanket impls become instances. Integer scalars are
modelled by ℤ, floating-point scalars by ℝ (with `powf` as `Real.rpow` and
the f64 machine epsilon as 2⁻⁵²). Iterator arguments are modelled by lists.
-/

namespace Vector2math

/-- Model of the Rust array type T2, a fixed two-element homogeneous array. -/
structure Arr2 (α : Type) where
  c0 : α
  c1 : α

/-- Model of the Rust array type T4, a fixed four-element homogeneous array. -/
structure Arr4 (α : Type) where
  c0 : α
  c1 : α
  c2 : α
  c3 : α

/-- The Pair trait: two items of one type, with projections and a constructor. -/
class Pair (σ : Type) (Item : outParam Type) where
  first : σ → Item
  second : σ → Item
  from_items : Item → Item → σ

/-- The impl of Pair for a two-tuple, with Item = T. -/
instance instPairProd {α : Type} : Pair (α × α) α where
  first p := p.1
  second p := p.2
  from_items a b := (a, b)

/-- The impl of Pair for a two-element array, with Item = T. -/
instance instPairArr2 {α : Type} : Pair (Arr2 α) α where
  first p := p.c0
  second p := p.c1
  from_items a b := ⟨a, b⟩

/-- The impl of Pair for a four-tuple, with Item a two-tuple. -/
instance instPairProd4 {α : Type} : Pair (α × α × α × α) (α × α) where
  first p := (p.1, p.2.1)
  second p := (p.2.2.1, p.2.2.2)
  from_items a b := (a.1, a.2, b.1, b.2)

/-- The impl of Pair for a four-element array, with Item a two-element array. -/
instance instPairArr4 {α : Type} : Pair (Arr4 α) (Arr2 α) where
  first p := ⟨p.c0, p.c1⟩
  second p := ⟨p.c2, p.c3⟩
  from_items a b := ⟨a.c0, a.c1, b.c0, b.c1⟩

/-- The Scalar trait bound bundle: arithmetic, the PartialOrd comparisons
(Bool-valued, as in Rust), absolute value and the ZeroOneTwo constants. -/
class Scalar (α : Type) where
  add : α → α → α
  sub : α → α → α
  mul : α → α → α
  div : α → α → α
  lt : α → α → Bool
  le : α → α → Bool
  gt : α → α → Bool
  abs : α → α
  ZERO : α
  ONE : α
  TWO : α

/-- Scalar::maxx: if self > other then self else other. -/
def Scalar.maxx {α : Type} [Scalar α] (self other : α) : α :=
  if Scalar.gt self other then self else other

/-- Scalar::minn: if self < other then self else other. -/
def Scalar.minn {α : Type} [Scalar α] (self other : α) : α :=
  if Scalar.lt self other then self else other

/-- The FloatingScalar trait: Scalar plus Pow (powf), Trig, PI and EPSILON. -/
class FloatingScalar (α : Type) extends Scalar α where
  pow : α → α → α
  cos : α → α
  sin : α → α
  atan2 : α → α → α
  PI : α
  EPSILON : α

/-- The Vector2 trait's required methods: x, y and the constructor. -/
class Vector2 (V : Type) (S : outParam Type) [Scalar S] where
  x : V → S
  y : V → S
  new : S → S → V

/-- The blanket impl of Vector2 for any Pair whose Item is a Scalar. -/
instance instVector2OfPair {P α : Type} [Scalar α] [Pair P α] : Vector2 P α where
  x := Pair.first
  y := Pair.second
  new := Pair.from_items

/-- Vector2::square: a vector with both components equal to s. -/
def Vector2.square {V S : Type} [Scalar S] [Vector2 V S] (s : S) : V :=
  Vector2.new s s

/-- Vector2::add: componentwise addition with any vector of the same scalar. -/
def Vector2.add {V W S : Type} [Scalar S] [Vector2 V S] [Vector2 W S]
    (self : V) (other : W) : V :=
  Vector2.new (Scalar.add (Vector2.x self) (Vector2.x other))
    (Scalar.add (Vector2.y self) (Vector2.y other))

/-- Vector2::sub: componentwise subtraction with any vector of the same scalar. -/
def Vector2.sub {V W S : Type} [Scalar S] [Vector2 V S] [Vector2 W S]
    (self : V) (other : W) : V :=
  Vector2.new (Scalar.sub (Vector2.x self) (Vector2.x other))
    (Scalar.sub (Vector2.y self) (Vector2.y other))

/-- Vector2::mul: multiplication by a scalar. -/
def Vector2.mul {V S : Type} [Scalar S] [Vector2 V S] (self : V) (by_ : S) : V :=
  Vector2.new (Scalar.mul (Vector2.x self) by_) (Scalar.mul (Vector2.y self) by_)

/-- Vector2::div: division by a scalar. -/
def Vector2.div {V S : Type} [Scalar S] [Vector2 V S] (self : V) (by_ : S) : V :=
  Vector2.new (Scalar.div (Vector2.x self) by_) (Scalar.div (Vector2.y self) by_)

/-- Vector2::max_dim: the component with the higher magnitude; x only when
its absolute value is strictly greater. -/
def Vector2.max_dim {V S : Type} [Scalar S] [Vector2 V S] (self : V) : S :=
  if Scalar.gt (Scalar.abs (Vector2.x self)) (Scalar.abs (Vector2.y self)) then
    Vector2.x self
  else
    Vector2.y self

/-- Vector2::min_dim: the component with the lower magnitude; x only when
its absolute value is strictly smaller. -/
def Vector2.min_dim {V S : Type} [Scalar S] [Vector2 V S] (self : V) : S :=
  if Scalar.lt (Scalar.abs (Vector2.x self)) (Scalar.abs (Vector2.y self)) then
    Vector2.x self
  else
    Vector2.y self

/-- FloatingVector2::dist: Euclidean distance computed with powf, namely
((x1-x2)^2 + (y1-y2)^2)^(1/2). -/
def FloatingVector2.dist {V W S : Type} [FloatingScalar S] [Vector2 V S]
    [Vector2 W S] (self : V) (to_ : W) : S :=
  FloatingScalar.pow
    (Scalar.add
      (FloatingScalar.pow (Scalar.sub (Vector2.x self) (Vector2.x to_)) Scalar.TWO)
      (FloatingScalar.pow (Scalar.sub (Vector2.y self) (Vector2.y to_)) Scalar.TWO))
    (Scalar.div Scalar.ONE Scalar.TWO)

/-- FloatingVector2::mag: the Euclidean norm, (x^2 + y^2)^(1/2) via powf. -/
def FloatingVector2.mag {V S : Type} [FloatingScalar S] [Vector2 V S] (self : V) : S :=
  FloatingScalar.pow
    (Scalar.add (FloatingScalar.pow (Vector2.x self) Scalar.TWO)
      (FloatingScalar.pow (Vector2.y self) Scalar.TWO))
    (Scalar.div Scalar.ONE Scalar.TWO)

/-- FloatingVector2::unit: the zero vector when the magnitude is below
EPSILON, otherwise the vector divided by its magnitude. -/
def FloatingVector2.unit {V S : Type} [FloatingScalar S] [Vector2 V S] (self : V) : V :=
  let mag := FloatingVector2.mag self
  if Scalar.lt mag FloatingScalar.EPSILON then
    Vector2.new Scalar.ZERO Scalar.ZERO
  else
    Vector2.div self mag

/-- The Rectangle trait's required methods: constructor, top_left and size. -/
class Rectangle (R : Type) (S V : outParam Type) [Scalar S] [Vector2 V S] where
  new : V → V → R
  top_left : R → V
  size : R → V

/-- The blanket impl of Rectangle for any Pair whose Item is a Vector2. -/
instance instRectangleOfPair {P V S : Type} [Scalar S] [Vector2 V S] [Pair P V] :
    Rectangle P S V where
  new := Pair.from_items
  top_left := Pair.first
  size := Pair.second

section RectangleOps

variable {R S V : Type} [Scalar S] [Vector2 V S] [Rectangle R S V]

/-- Rectangle::abs_size: the componentwise absolute value of the size. -/
def Rectangle.abs_size (self : R) : V :=
  Vector2.new (Scalar.abs (Vector2.x (Rectangle.size self)))
    (Scalar.abs (Vector2.y (Rectangle.size self)))

/-- Rectangle::abs_top_left: the true minimum corner,
(minn tl.x (tl.x + size.x), minn tl.y (tl.y + size.y)). -/
def Rectangle.abs_top_left (self : R) : V :=
  Vector2.new
    (Scalar.minn (Vector2.x (Rectangle.top_left self))
      (Scalar.add (Vector2.x (Rectangle.top_left self))
        (Vector2.x (Rectangle.size self))))
    (Scalar.minn (Vector2.y (Rectangle.top_left self))
      (Scalar.add (Vector2.y (Rectangle.top_left self))
        (Vector2.y (Rectangle.size self))))

/-- Rectangle::abs_top: the y of abs_top_left. -/
def Rectangle.abs_top (self : R) : S :=
  Vector2.y (Rectangle.abs_top_left self)

/-- Rectangle::abs_bottom: abs_top_left.y + abs_size.y. -/
def Rectangle.abs_bottom (self : R) : S :=
  Scalar.add (Vector2.y (Rectangle.abs_top_left self))
    (Vector2.y (Rectangle.abs_size self))

/-- Rectangle::abs_left: the x of abs_top_left. -/
def Rectangle.abs_left (self : R) : S :=
  Vector2.x (Rectangle.abs_top_left self)

/-- Rectangle::abs_right: abs_top_left.x + abs_size.x. -/
def Rectangle.abs_right (self : R) : S :=
  Scalar.add (Vector2.x (Rectangle.abs_top_left self))
    (Vector2.x (Rectangle.abs_size self))

/-- Rectangle::width: the x of the raw size. -/
def Rectangle.width (self : R) : S :=
  Vector2.x (Rectangle.size self)

/-- Rectangle::height: the y of the raw size. -/
def Rectangle.height (self : R) : S :=
  Vector2.y (Rectangle.size self)

/-- Rectangle::abs_width: the x of abs_size. -/
def Rectangle.abs_width (self : R) : S :=
  Vector2.x (Rectangle.abs_size self : V)

/-- Rectangle::abs_height: the y of abs_size. -/
def Rectangle.abs_height (self : R) : S :=
  Vector2.y (Rectangle.abs_size self : V)

/-- Rectangle::center: top_left + size / 2 (raw size). -/
def Rectangle.center (self : R) : V :=
  Vector2.add (Rectangle.top_left self)
    (Vector2.div (Rectangle.size self) Scalar.TWO)

/-- Rectangle::contains: the inclusive bounds test against the absolute
edges, x bounds first and then y bounds. -/
def Rectangle.contains (self : R) (point : V) : Bool :=
  (Scalar.le ((Rectangle.abs_left self : S)) (Vector2.x point)
      && Scalar.le (Vector2.x point) ((Rectangle.abs_right self : S)))
    && (Scalar.le ((Rectangle.abs_top self : S)) (Vector2.y point)
      && Scalar.le (Vector2.y point) ((Rectangle.abs_bottom self : S)))

/-- Rectangle::contains_all: every point of the sequence is contained. -/
def Rectangle.contains_all (self : R) (points : List V) : Bool :=
  points.all fun point => Rectangle.contains self point

/-- Rectangle::contains_any: some point of the sequence is contained. -/
def Rectangle.contains_any (self : R) (points : List V) : Bool :=
  points.any fun point => Rectangle.contains self point

/-- The loop body of Rectangle::bounding: the for-loop update of the running
(tl, br) pair by one point, using minn and maxx componentwise. -/
def Rectangle.bounding_step (acc : V × V) (point : V) : V × V :=
  (Vector2.new (Scalar.minn (Vector2.x acc.1) (Vector2.x point))
      (Scalar.minn (Vector2.y acc.1) (Vector2.y point)),
    Vector2.new (Scalar.maxx (Vector2.x acc.2) (Vector2.x point))
      (Scalar.maxx (Vector2.y acc.2) (Vector2.y point)))

/-- Rectangle::bounding: none on an empty sequence; otherwise fold the
min/max loop from the first point and build new tl (br - tl). -/
def Rectangle.bounding (points : List V) : Option R :=
  match points with
  | [] => none
  | fst :: rest =>
    let p := rest.foldl Rectangle.bounding_step (fst, fst)
    some (Rectangle.new p.1 (Vector2.sub p.2 p.1))

/-- Rectangle::inner_margins: new rectangle at abs_top_left + (left, top)
with size abs_size - (left + right, top + bottom); margins ordered
left, right, top, bottom. -/
def Rectangle.inner_margins (self : R) (margins : Arr4 S) : R :=
  Rectangle.new
    (Vector2.add ((Rectangle.abs_top_left self : V))
      (Vector2.new margins.c0 margins.c2 : V))
    (Vector2.sub ((Rectangle.abs_size self : V))
      (Vector2.new (Scalar.add margins.c0 margins.c1)
        (Scalar.add margins.c2 margins.c3) : V))

/-- Rectangle::inner_margin: inner_margins with the same margin on all sides. -/
def Rectangle.inner_margin (self : R) (margin : S) : R :=
  Rectangle.inner_margins self ⟨margin, margin, margin, margin⟩

end RectangleOps

/-- The Circle trait's required methods: constructor, center and radius. -/
class Circle (C : Type) (S V : outParam Type) [FloatingScalar S] [Vector2 V S] where
  new : V → S → C
  center : C → V
  radius : C → S

/-- The impl of Circle for the (vector, scalar) two-tuple. -/
instance instCircleProd {V S : Type} [FloatingScalar S] [Vector2 V S] :
    Circle (V × S) S V where
  new c r := (c, r)
  center c := c.1
  radius c := c.2

section CircleOps

variable {C R S V : Type} [FloatingScalar S] [Vector2 V S] [Circle C S V]

/-- Circle::to_square: the rectangle new (center - square radius,
square (radius * 2)). -/
def Circle.to_square [Rectangle R S V] (self : C) : R :=
  Rectangle.new
    (Vector2.sub (Circle.center self) (Vector2.square (Circle.radius self) : V))
    (Vector2.square (Scalar.mul (Circle.radius self) Scalar.TWO))

/-- Circle::contains: dist center point ≤ abs radius. -/
def Circle.contains (self : C) (point : V) : Bool :=
  Scalar.le (FloatingVector2.dist (Circle.center self) point)
    (Scalar.abs (Circle.radius self))

/-- Circle::contains_all: every point of the sequence is contained. -/
def Circle.contains_all (self : C) (points : List V) : Bool :=
  points.all fun point => Circle.contains self point

/-- Circle::contains_any: some point of the sequence is contained. -/
def Circle.contains_any (self : C) (points : List V) : Bool :=
  points.any fun point => Circle.contains self point

end CircleOps

/-- The integer scalar instance: ℤ models Rust's signed integer scalars
with exact (non-wrapping) arithmetic. -/
instance instScalarInt : Scalar ℤ where
  add a b := a + b
  sub a b := a - b
  mul a b := a * b
  div a b := a / b
  lt a b := decide (a < b)
  le a b := decide (a ≤ b)
  gt a b := decide (a > b)
  abs a := |a|
  ZERO := 0
  ONE := 1
  TWO := 2

/-- The floating scalar instance: ℝ models Rust's f64 with powf as rpow and
EPSILON = 2⁻⁵², the f64 machine epsilon. -/
noncomputable instance instFloatingScalarReal : FloatingScalar ℝ where
  add a b := a + b
  sub a b := a - b
  mul a b := a * b
  div a b := a / b
  lt a b := decide (a < b)
  le a b := decide (a ≤ b)
  gt a b := decide (a > b)
  abs a := |a|
  ZERO := 0
  ONE := 1
  TWO := 2
  pow := Real.rpow
  cos := Real.cos
  sin := Real.sin
  atan2 y x := Complex.arg ⟨x, y⟩
  PI := Real.pi
  EPSILON := ((2 : ℝ) ^ (52 : ℕ))⁻¹

/-! Bridge lemmas: how the class operations evaluate at the concrete
instances (ℤ scalars, the Arr2 vector shape, the Arr4 rectangle shape). -/

theorem int_add (a b : ℤ) : Scalar.add a b = a + b := rfl

theorem int_sub (a b : ℤ) : Scalar.sub a b = a - b := rfl

theorem int_mul (a b : ℤ) : Scalar.mul a b = a * b := rfl

theorem int_lt (a b : ℤ) : Scalar.lt a b = decide (a < b) := rfl

theorem int_le (a b : ℤ) : Scalar.le a b = decide (a ≤ b) := rfl

theorem int_gt (a b : ℤ) : Scalar.gt a b = decide (b < a) := rfl

theorem int_abs (a : ℤ) : Scalar.abs a = |a| := rfl

theorem pair_first_arr2 {α : Type} (v : Arr2 α) : Pair.first v = v.c0 := rfl

theorem pair_second_arr2 {α : Type} (v : Arr2 α) : Pair.second v = v.c1 := rfl

theorem pair_from_items_arr2 {α : Type} (a b : α) :
    (Pair.from_items a b : Arr2 α) = ⟨a, b⟩ := rfl

theorem pair_first_arr4 {α : Type} (r : Arr4 α) :
    (Pair.first r : Arr2 α) = ⟨r.c0, r.c1⟩ := rfl

theorem pair_second_arr4 {α : Type} (r : Arr4 α) :
    (Pair.second r : Arr2 α) = ⟨r.c2, r.c3⟩ := rfl

theorem pair_from_items_arr4 {α : Type} (v w : Arr2 α) :
    (Pair.from_items v w : Arr4 α) = ⟨v.c0, v.c1, w.c0, w.c1⟩ := rfl

theorem x_arr2 {α : Type} [Scalar α] (v : Arr2 α) : Vector2.x v = v.c0 := rfl

theorem y_arr2 {α : Type} [Scalar α] (v : Arr2 α) : Vector2.y v = v.c1 := rfl

theorem new_arr2 {α : Type} [Scalar α] (a b : α) :
    (Vector2.new a b : Arr2 α) = ⟨a, b⟩ := rfl

theorem top_left_arr4 {α : Type} [Scalar α] (r : Arr4 α) :
    (Rectangle.top_left r : Arr2 α) = ⟨r.c0, r.c1⟩ := rfl

theorem size_arr4 {α : Type} [Scalar α] (r : Arr4 α) :
    (Rectangle.size r : Arr2 α) = ⟨r.c2, r.c3⟩ := rfl

theorem new_arr4 {α : Type} [Scalar α] (v w : Arr2 α) :
    (Rectangle.new v w : Arr4 α) = ⟨v.c0, v.c1, w.c0, w.c1⟩ := rfl

theorem minn_int (a b : ℤ) : Scalar.minn a b = if a < b then a else b := by
  simp [Scalar.minn, int_lt]

theorem maxx_int (a b : ℤ) : Scalar.maxx a b = if b < a then a else b := by
  simp [Scalar.maxx, int_gt]

/-- C1: for every rectangle, of either sign of either size component, the
absolute accessors satisfy abs_left ≤ abs_right and abs_top ≤ abs_bottom. -/
theorem rect_abs_edges_sign_safe (r : Arr4 ℤ) :
    Rectangle.abs_left r ≤ Rectangle.abs_right r ∧
      Rectangle.abs_top r ≤ Rectangle.abs_bottom r := by
  obtain ⟨a, b, w, h⟩ := r
  constructor <;>
    simp [Rectangle.abs_left, Rectangle.abs_right, Rectangle.abs_top,
      Rectangle.abs_bottom, Rectangle.abs_top_left, Rectangle.abs_size,
      top_left_arr4, size_arr4, new_arr2, x_arr2, y_arr2, minn_int,
      int_add, int_abs]

/-- C5: maxx takes the self branch exactly when self > other strictly, minn
exactly when self < other strictly; on equal operands both take the else
branch and return the second operand. -/
theorem maxx_minn_tie_break (a b : ℤ) :
    (b < a → Scalar.maxx a b = a) ∧ (¬ b < a → Scalar.maxx a b = b) ∧
      (a < b → Scalar.minn a b = a) ∧ (¬ a < b → Scalar.minn a b = b) ∧
      (a = b → Scalar.maxx a b = b ∧ Scalar.minn a b = b) := by
  refine ⟨fun h => ?_, fun h => ?_, fun h => ?_, fun h => ?_, fun h => ⟨?_, ?_⟩⟩ <;>
    simp [maxx_int, minn_int, h]

/-- C6: max_dim returns x exactly when its absolute value strictly exceeds
the y absolute value, min_dim returns x exactly when it is strictly smaller;
on an absolute-value tie both return the y component. -/
theorem max_dim_min_dim_tie_break (v : Arr2 ℤ) :
    (|Vector2.y v| < |Vector2.x v| → Vector2.max_dim v = Vector2.x v) ∧
      (¬ |Vector2.y v| < |Vector2.x v| → Vector2.max_dim v = Vector2.y v) ∧
      (|Vector2.x v| < |Vector2.y v| → Vector2.min_dim v = Vector2.x v) ∧
      (¬ |Vector2.x v| < |Vector2.y v| → Vector2.min_dim v = Vector2.y v) ∧
      (|Vector2.x v| = |Vector2.y v| →
        Vector2.max_dim v = Vector2.y v ∧ Vector2.min_dim v = Vector2.y v) := by
  obtain ⟨c0, c1⟩ := v
  refine ⟨fun h => ?_, fun h => ?_, fun h => ?_, fun h => ?_, fun h => ⟨?_, ?_⟩⟩ <;>
    simp [Vector2.max_dim, Vector2.min_dim, int_lt, int_gt, int_abs,
      x_arr2, y_arr2] at h ⊢ <;>
    simp [h]

/-- C9: for each built-in Pair shape, from_items (first p) (second p) = p,
and the derived Vector2 and Rectangle constructors rebuild any such vector
or rectangle from their accessors exactly. -/
theorem pair_from_items_roundtrip :
    (∀ (β : Type) (p : β × β), Pair.from_items (Pair.first p) (Pair.second p) = p) ∧
      (∀ (β : Type) (p : Arr2 β), Pair.from_items (Pair.first p) (Pair.second p) = p) ∧
      (∀ (β : Type) (p : β × β × β × β),
        Pair.from_items (Pair.first p) (Pair.second p) = p) ∧
      (∀ (β : Type) (p : Arr4 β), Pair.from_items (Pair.first p) (Pair.second p) = p) ∧
      (∀ (α : Type) [Scalar α] (v : Arr2 α),
        Vector2.new (Vector2.x v) (Vector2.y v) = v) ∧
      (∀ (α : Type) [Scalar α] (v : α × α),
        Vector2.new (Vector2.x v) (Vector2.y v) = v) ∧
      (∀ (α : Type) [Scalar α] (r : Arr4 α),
        Rectangle.new (Rectangle.top_left r) (Rectangle.size r) = r) ∧
      (∀ (α : Type) [Scalar α] (r : α × α × α × α),
        Rectangle.new (Rectangle.top_left r) (Rectangle.size r) = r) :=
  ⟨fun _ _ => rfl, fun _ _ => rfl, fun _ _ => rfl, fun _ _ => rfl,
    fun _ _ _ => rfl, fun _ _ _ => rfl, fun _ _ _ => rfl, fun _ _ _ => rfl⟩

/-- C10: contains_all of an empty point sequence is true and contains_any of
an empty point sequence is false, for rectangles and for circles. -/
theorem contains_all_any_empty :
    (∀ r : Arr4 ℤ, Rectangle.contains_all r ([] : List (Arr2 ℤ)) = true ∧
      Rectangle.contains_any r ([] : List (Arr2 ℤ)) = false) ∧
      (∀ c : Arr2 ℝ × ℝ, Circle.contains_all c ([] : List (Arr2 ℝ)) = true ∧
        Circle.contains_any c ([] : List (Arr2 ℝ)) = false) :=
  ⟨fun _ => ⟨rfl, rfl⟩, fun _ => ⟨rfl, rfl⟩⟩

/-- C2 fails as stated: for the zero-size rectangle at the origin and margin
1, the inner-margin rectangle has size (-2, -2) and its absolute edges span
[-1, 1] on both axes, so it contains (-1, -1) while the original rectangle
does not. -/
theorem inner_margin_contains_cex :
    (0 : ℤ) < 1 ∧
      Rectangle.contains
        (Rectangle.inner_margin (Arr4.mk 0 0 0 0 : Arr4 ℤ) 1) (Arr2.mk (-1) (-1))
        = true ∧
      Rectangle.contains (Arr4.mk 0 0 0 0 : Arr4 ℤ) (Arr2.mk (-1) (-1)) = false := by
  refine ⟨by decide, by decide, by decide⟩

/-- C2 amended: if additionally the margin does not exceed the absolute
width and the absolute height, then containment in the inner-margin
rectangle implies containment in the rectangle (the inner rectangle's
absolute edges then stay inside the original's, even when the shrunken
size goes negative). -/
theorem inner_margin_contains_monotonic (r : Arr4 ℤ) (p : Arr2 ℤ) (m : ℤ)
    (hm : 0 < m)
    (hw : m ≤ Rectangle.abs_width r)
    (hh : m ≤ Rectangle.abs_height r)
    (hc : Rectangle.contains (Rectangle.inner_margin r m) p = true) :
    Rectangle.contains r p = true := by
  obtain ⟨a, b, w, h⟩ := r
  obtain ⟨px, py⟩ := p
  simp only [Rectangle.abs_width, Rectangle.abs_height, Rectangle.abs_size,
    size_arr4, x_arr2, y_arr2, new_arr2, int_abs] at hw hh
  simp only [Rectangle.contains, Rectangle.inner_margin, Rectangle.inner_margins,
    Rectangle.abs_left, Rectangle.abs_right, Rectangle.abs_top,
    Rectangle.abs_bottom, Rectangle.abs_top_left, Rectangle.abs_size,
    Vector2.add, Vector2.sub,
    top_left_arr4, size_arr4, new_arr4, new_arr2, x_arr2, y_arr2,
    pair_first_arr2, pair_second_arr2, pair_from_items_arr2,
    pair_first_arr4, pair_second_arr4, pair_from_items_arr4,
    minn_int, int_add, int_sub, int_le, int_abs, Bool.and_eq_true,
    decide_eq_true_eq] at hc ⊢
  rw [Int.abs_eq_natAbs] at hw hh
  simp only [Int.abs_eq_natAbs] at hc ⊢
  obtain ⟨⟨hc1, hc2⟩, hc3, hc4⟩ := hc
  constructor
  · constructor <;> split_ifs at hc1 hc2 ⊢ <;> omega
  · constructor <;> split_ifs at hc3 hc4 ⊢ <;> omega

/-- C2 witness: the rectangle [0, 0, 8, 8] with margin 2 and the point
(3, 3) satisfies the hypotheses, and the conclusion follows by the theorem. -/
theorem inner_margin_contains_monotonic_witness :
    Rectangle.contains (Arr4.mk 0 0 8 8 : Arr4 ℤ) (Arr2.mk 3 3) = true :=
  inner_margin_contains_monotonic (Arr4.mk 0 0 8 8) (Arr2.mk 3 3) 2
    (by decide) (by decide) (by decide) (by decide)

/-! Bridge lemmas for the ℝ instance and the circle shape. -/

theorem real_add (a b : ℝ) : Scalar.add a b = a + b := rfl

theorem real_sub (a b : ℝ) : Scalar.sub a b = a - b := rfl

theorem real_mul (a b : ℝ) : Scalar.mul a b = a * b := rfl

theorem real_div (a b : ℝ) : Scalar.div a b = a / b := rfl

theorem real_lt (a b : ℝ) : Scalar.lt a b = decide (a < b) := rfl

theorem real_le (a b : ℝ) : Scalar.le a b = decide (a ≤ b) := rfl

theorem real_abs (a : ℝ) : Scalar.abs a = |a| := rfl

theorem real_pow (a b : ℝ) : FloatingScalar.pow a b = a ^ b := rfl

theorem real_ZERO : (Scalar.ZERO : ℝ) = 0 := rfl

theorem real_ONE : (Scalar.ONE : ℝ) = 1 := rfl

theorem real_TWO : (Scalar.TWO : ℝ) = 2 := rfl

theorem real_EPSILON : (FloatingScalar.EPSILON : ℝ) = ((2 : ℝ) ^ (52 : ℕ))⁻¹ := rfl

theorem real_EPSILON_pos : (0 : ℝ) < FloatingScalar.EPSILON := by
  rw [real_EPSILON]; positivity

theorem circle_center_prod {V S : Type} [FloatingScalar S] [Vector2 V S]
    (c : V × S) : Circle.center c = c.1 := rfl

theorem circle_radius_prod {V S : Type} [FloatingScalar S] [Vector2 V S]
    (c : V × S) : Circle.radius c = c.2 := rfl

/-- The powf computation of mag is the Euclidean norm. -/
theorem mag_eq_sqrt (v : Arr2 ℝ) :
    FloatingVector2.mag v = Real.sqrt (v.c0 ^ 2 + v.c1 ^ 2) := by
  simp only [FloatingVector2.mag, real_pow, real_add, real_div, real_ONE,
    real_TWO, x_arr2, y_arr2]
  rw [Real.rpow_two, Real.rpow_two, ← Real.sqrt_eq_rpow]

/-- The powf computation of dist is the Euclidean distance. -/
theorem dist_eq_sqrt (v w : Arr2 ℝ) :
    FloatingVector2.dist v w =
      Real.sqrt ((v.c0 - w.c0) ^ 2 + (v.c1 - w.c1) ^ 2) := by
  simp only [FloatingVector2.dist, real_pow, real_add, real_sub, real_div,
    real_ONE, real_TWO, x_arr2, y_arr2]
  rw [Real.rpow_two, Real.rpow_two, ← Real.sqrt_eq_rpow]

/-- C7: to_square returns new (center - (radius, radius), (2 radius, 2 radius));
its center is the circle's center and both sides equal twice the radius. -/
theorem circle_to_square_spec (c : Arr2 ℝ × ℝ) :
    (Circle.to_square c : Arr4 ℝ)
        = Rectangle.new
          (Vector2.sub (Circle.center c) (Vector2.square (Circle.radius c) : Arr2 ℝ))
          (Vector2.square (Scalar.mul (Circle.radius c) Scalar.TWO)) ∧
      (Rectangle.center (Circle.to_square c : Arr4 ℝ) : Arr2 ℝ) = Circle.center c ∧
      Rectangle.width (Circle.to_square c : Arr4 ℝ) = 2 * Circle.radius c ∧
      Rectangle.height (Circle.to_square c : Arr4 ℝ) = 2 * Circle.radius c := by
  obtain ⟨⟨cx, cy⟩, rad⟩ := c
  refine ⟨rfl, ?_, ?_, ?_⟩ <;>
    simp only [Rectangle.center, Rectangle.width, Rectangle.height,
      Circle.to_square, Vector2.add, Vector2.sub, Vector2.div, Vector2.square,
      circle_center_prod, circle_radius_prod, top_left_arr4, size_arr4,
      new_arr4, new_arr2, x_arr2, y_arr2, real_add, real_sub, real_mul,
      real_div, real_TWO, Arr2.mk.injEq] <;>
    norm_num <;> ring

/-- C8: the circle contains a point exactly when the Euclidean distance from
the center to the point is at most the absolute radius, so negating the
radius leaves containment unchanged. -/
theorem circle_contains_abs_radius (c : Arr2 ℝ × ℝ) (p : Arr2 ℝ) :
    (Circle.contains c p = true ↔
      Real.sqrt (((Circle.center c : Arr2 ℝ).c0 - p.c0) ^ 2 +
          ((Circle.center c : Arr2 ℝ).c1 - p.c1) ^ 2) ≤ |Circle.radius c|) ∧
      Circle.contains ((Circle.center c : Arr2 ℝ), -Circle.radius c) p
        = Circle.contains c p := by
  obtain ⟨⟨cx, cy⟩, rad⟩ := c
  constructor
  · simp [Circle.contains, real_le, real_abs, dist_eq_sqrt,
      circle_center_prod, circle_radius_prod]
  · simp [Circle.contains, real_le, real_abs, circle_center_prod,
      circle_radius_prod, abs_neg]

/-- C4: unit returns the exact zero vector whenever the magnitude is below
EPSILON; otherwise it returns the vector divided by its magnitude, whose
magnitude is 1 within EPSILON. -/
theorem unit_guard_spec (v : Arr2 ℝ) :
    (FloatingVector2.mag v < (FloatingScalar.EPSILON : ℝ) →
        FloatingVector2.unit v = (Vector2.new (Scalar.ZERO : ℝ) Scalar.ZERO : Arr2 ℝ)) ∧
      ((FloatingScalar.EPSILON : ℝ) ≤ FloatingVector2.mag v →
        FloatingVector2.unit v = Vector2.div v (FloatingVector2.mag v) ∧
          |FloatingVector2.mag (FloatingVector2.unit v) - 1|
            < (FloatingScalar.EPSILON : ℝ)) := by
  constructor
  · intro hlt
    simp [FloatingVector2.unit, real_lt, hlt]
  · intro hge
    have hnlt : ¬ FloatingVector2.mag v < (FloatingScalar.EPSILON : ℝ) :=
      not_lt.mpr hge
    have hpos : 0 < FloatingVector2.mag v := lt_of_lt_of_le real_EPSILON_pos hge
    have hne : FloatingVector2.mag v ≠ 0 := ne_of_gt hpos
    have hunit : FloatingVector2.unit v = Vector2.div v (FloatingVector2.mag v) := by
      simp [FloatingVector2.unit, real_lt, hnlt]
    refine ⟨hunit, ?_⟩
    have hdiv : (Vector2.div v (FloatingVector2.mag v) : Arr2 ℝ)
        = Arr2.mk (v.c0 / FloatingVector2.mag v) (v.c1 / FloatingVector2.mag v) := by
      simp [Vector2.div, real_div, x_arr2, y_arr2, new_arr2]
    have hs : (0 : ℝ) ≤ v.c0 ^ 2 + v.c1 ^ 2 := by positivity
    have hsq : v.c0 ^ 2 + v.c1 ^ 2 = (FloatingVector2.mag v) ^ 2 := by
      rw [mag_eq_sqrt, Real.sq_sqrt hs]
    have hone : FloatingVector2.mag
        (Arr2.mk (v.c0 / FloatingVector2.mag v) (v.c1 / FloatingVector2.mag v)) = 1 := by
      rw [mag_eq_sqrt]
      have hcomp : (v.c0 / FloatingVector2.mag v) ^ 2 + (v.c1 / FloatingVector2.mag v) ^ 2
          = (v.c0 ^ 2 + v.c1 ^ 2) / (FloatingVector2.mag v) ^ 2 := by ring
      rw [hcomp, hsq, div_self (pow_ne_zero 2 hne), Real.sqrt_one]
    rw [hunit, hdiv, hone]
    simpa using real_EPSILON_pos

/-! Helper lemmas for the bounding fold: minn and maxx agree with min and
max on ℤ, and a left fold of min (max) over a list is a lower (upper) bound
that is attained. -/

theorem minn_eq_min (a b : ℤ) : Scalar.minn a b = min a b := by
  rw [minn_int]
  split_ifs with h
  · exact (min_eq_left h.le).symm
  · exact (min_eq_right (not_lt.mp h)).symm

theorem maxx_eq_max (a b : ℤ) : Scalar.maxx a b = max a b := by
  rw [maxx_int]
  split_ifs with h
  · exact (max_eq_left h.le).symm
  · exact (max_eq_right (not_lt.mp h)).symm

theorem foldl_min_le_init (l : List ℤ) (a : ℤ) : l.foldl min a ≤ a := by
  induction l generalizing a with
  | nil => simp
  | cons q t ih => exact le_trans (ih (min a q)) (min_le_left a q)

theorem foldl_min_le_mem (l : List ℤ) (a q : ℤ) (hq : q ∈ l) : l.foldl min a ≤ q := by
  induction l generalizing a with
  | nil => cases hq
  | cons p t ih =>
    rcases List.mem_cons.mp hq with h | h
    · subst h
      exact le_trans (foldl_min_le_init t (min a q)) (min_le_right a q)
    · exact ih (min a p) h

theorem foldl_min_attained (l : List ℤ) (a : ℤ) :
    l.foldl min a = a ∨ l.foldl min a ∈ l := by
  induction l generalizing a with
  | nil => exact Or.inl rfl
  | cons p t ih =>
    rw [List.foldl_cons]
    rcases ih (min a p) with h | h
    · rcases min_cases a p with ⟨he, _⟩ | ⟨he, _⟩
      · exact Or.inl (h.trans he)
      · exact Or.inr (by rw [h, he]; exact List.mem_cons_self p t)
    · exact Or.inr (List.mem_cons_of_mem p h)

theorem foldl_max_ge_init (l : List ℤ) (a : ℤ) : a ≤ l.foldl max a := by
  induction l generalizing a with
  | nil => simp
  | cons q t ih => exact le_trans (le_max_left a q) (ih (max a q))

theorem foldl_max_ge_mem (l : List ℤ) (a q : ℤ) (hq : q ∈ l) : q ≤ l.foldl max a := by
  induction l generalizing a with
  | nil => cases hq
  | cons p t ih =>
    rcases List.mem_cons.mp hq with h | h
    · subst h
      exact le_trans (le_max_right a q) (foldl_max_ge_init t (max a q))
    · exact ih (max a p) h

theorem foldl_max_attained (l : List ℤ) (a : ℤ) :
    l.foldl max a = a ∨ l.foldl max a ∈ l := by
  induction l generalizing a with
  | nil => exact Or.inl rfl
  | cons p t ih =>
    rw [List.foldl_cons]
    rcases ih (max a p) with h | h
    · rcases max_cases a p with ⟨he, _⟩ | ⟨he, _⟩
      · exact Or.inl (h.trans he)
      · exact Or.inr (by rw [h, he]; exact List.mem_cons_self p t)
    · exact Or.inr (List.mem_cons_of_mem p h)

/-- One step of the bounding fold at the concrete integer vector shape. -/
theorem bounding_step_arr2 (t b q : Arr2 ℤ) :
    Rectangle.bounding_step ((t, b) : Arr2 ℤ × Arr2 ℤ) q =
      (Arr2.mk (min t.c0 q.c0) (min t.c1 q.c1),
        Arr2.mk (max b.c0 q.c0) (max b.c1 q.c1)) := by
  simp [Rectangle.bounding_step, minn_eq_min, maxx_eq_max, x_arr2, y_arr2,
    new_arr2]

/-- The bounding fold decomposes componentwise into folds of min and max. -/
theorem bounding_fold_components (rest : List (Arr2 ℤ)) (t b : Arr2 ℤ) :
    rest.foldl Rectangle.bounding_step (t, b) =
      (Arr2.mk ((rest.map Arr2.c0).foldl min t.c0)
          ((rest.map Arr2.c1).foldl min t.c1),
        Arr2.mk ((rest.map Arr2.c0).foldl max b.c0)
          ((rest.map Arr2.c1).foldl max b.c1)) := by
  induction rest generalizing t b with
  | nil => rfl
  | cons q tail ih =>
    rw [List.foldl_cons, bounding_step_arr2, ih]
    rfl

/-- C3: bounding is none exactly on the empty sequence; on a non-empty
sequence it is some rectangle whose top-left bounds every point from below
and is attained componentwise, whose top-left plus size bounds every point
from above and is attained componentwise (size = max - min), and whose size
components are non-negative; on a one-point sequence it is the zero-size
rectangle anchored at that point. -/
theorem bounding_spec :
    (Rectangle.bounding ([] : List (Arr2 ℤ)) = (none : Option (Arr4 ℤ))) ∧
      (∀ p : Arr2 ℤ, Rectangle.bounding [p]
        = some (Rectangle.new p (Vector2.new 0 0) : Arr4 ℤ)) ∧
      (∀ (fst : Arr2 ℤ) (rest : List (Arr2 ℤ)), ∃ r : Arr4 ℤ,
        Rectangle.bounding (fst :: rest) = some r ∧
        (∀ q ∈ fst :: rest,
          Vector2.x (Rectangle.top_left r : Arr2 ℤ) ≤ Vector2.x q ∧
            Vector2.y (Rectangle.top_left r : Arr2 ℤ) ≤ Vector2.y q) ∧
        (∃ q ∈ fst :: rest, Vector2.x q = Vector2.x (Rectangle.top_left r : Arr2 ℤ)) ∧
        (∃ q ∈ fst :: rest, Vector2.y q = Vector2.y (Rectangle.top_left r : Arr2 ℤ)) ∧
        (∀ q ∈ fst :: rest,
          Vector2.x q ≤ Vector2.x (Rectangle.top_left r : Arr2 ℤ)
              + Vector2.x (Rectangle.size r : Arr2 ℤ) ∧
            Vector2.y q ≤ Vector2.y (Rectangle.top_left r : Arr2 ℤ)
              + Vector2.y (Rectangle.size r : Arr2 ℤ)) ∧
        (∃ q ∈ fst :: rest,
          Vector2.x (Rectangle.top_left r : Arr2 ℤ)
              + Vector2.x (Rectangle.size r : Arr2 ℤ) = Vector2.x q) ∧
        (∃ q ∈ fst :: rest,
          Vector2.y (Rectangle.top_left r : Arr2 ℤ)
              + Vector2.y (Rectangle.size r : Arr2 ℤ) = Vector2.y q) ∧
        0 ≤ Vector2.x (Rectangle.size r : Arr2 ℤ) ∧
          0 ≤ Vector2.y (Rectangle.size r : Arr2 ℤ)) := by
  refine ⟨rfl, ?_, ?_⟩
  · intro p
    simp [Rectangle.bounding, Vector2.sub, int_sub, x_arr2, y_arr2, new_arr2]
  · intro fst rest
    refine ⟨Rectangle.new
        (Arr2.mk ((rest.map Arr2.c0).foldl min fst.c0)
          ((rest.map Arr2.c1).foldl min fst.c1))
        (Vector2.sub
          (Arr2.mk ((rest.map Arr2.c0).foldl max fst.c0)
            ((rest.map Arr2.c1).foldl max fst.c1))
          (Arr2.mk ((rest.map Arr2.c0).foldl min fst.c0)
            ((rest.map Arr2.c1).foldl min fst.c1))),
      ?_, ?_, ?_, ?_, ?_, ?_, ?_, ?_, ?_⟩
    · simp only [Rectangle.bounding, bounding_fold_components]
    all_goals
      simp only [top_left_arr4, size_arr4, new_arr4, x_arr2, y_arr2,
        Vector2.sub, int_sub, new_arr2, pair_first_arr4, pair_second_arr4]
    · intro q hq
      rcases List.mem_cons.mp hq with h | h
      · subst h
        exact ⟨foldl_min_le_init _ _, foldl_min_le_init _ _⟩
      · exact ⟨foldl_min_le_mem _ _ _ (List.mem_map_of_mem Arr2.c0 h),
          foldl_min_le_mem _ _ _ (List.mem_map_of_mem Arr2.c1 h)⟩
    · rcases foldl_min_attained (rest.map Arr2.c0) fst.c0 with h | h
      · exact ⟨fst, List.mem_cons_self fst rest, h.symm⟩
      · obtain ⟨q, hq, hqe⟩ := List.mem_map.mp h
        exact ⟨q, List.mem_cons_of_mem fst hq, hqe⟩
    · rcases foldl_min_attained (rest.map Arr2.c1) fst.c1 with h | h
      · exact ⟨fst, List.mem_cons_self fst rest, h.symm⟩
      · obtain ⟨q, hq, hqe⟩ := List.mem_map.mp h
        exact ⟨q, List.mem_cons_of_mem fst hq, hqe⟩
    · intro q hq
      have hx : q.c0 ≤ (rest.map Arr2.c0).foldl max fst.c0 := by
        rcases List.mem_cons.mp hq with h | h
        · subst h; exact foldl_max_ge_init _ _
        · exact foldl_max_ge_mem _ _ _ (List.mem_map_of_mem Arr2.c0 h)
      have hy : q.c1 ≤ (rest.map Arr2.c1).foldl max fst.c1 := by
        rcases List.mem_cons.mp hq with h | h
        · subst h; exact foldl_max_ge_init _ _
        · exact foldl_max_ge_mem _ _ _ (List.mem_map_of_mem Arr2.c1 h)
      exact ⟨by omega, by omega⟩
    · rcases foldl_max_attained (rest.map Arr2.c0) fst.c0 with h | h
      · exact ⟨fst, List.mem_cons_self fst rest, by omega⟩
      · obtain ⟨q, hq, hqe⟩ := List.mem_map.mp h
        exact ⟨q, List.mem_cons_of_mem fst hq, by omega⟩
    · rcases foldl_max_attained (rest.map Arr2.c1) fst.c1 with h | h
      · exact ⟨fst, List.mem_cons_self fst rest, by omega⟩
      · obtain ⟨q, hq, hqe⟩ := List.mem_map.mp h
        exact ⟨q, List.mem_cons_of_mem fst hq, by omega⟩
    · have h1 : (rest.map Arr2.c0).foldl min fst.c0 ≤ fst.c0 := foldl_min_le_init _ _
      have h2 : fst.c0 ≤ (rest.map Arr2.c0).foldl max fst.c0 := foldl_max_ge_init _ _
      omega
    · have h1 : (rest.map Arr2.c1).foldl min fst.c1 ≤ fst.c1 := foldl_min_le_init _ _
      have h2 : fst.c1 ≤ (rest.map Arr2.c1).foldl max fst.c1 := foldl_max_ge_init _ _
      omega

end Vector2math
